import Mathlib

/-!
Verification of the helpdesk ticketing application: a shallow embedding of
the row-level-security (RLS) policies of
`supabase/migrations/20250122003413_azure_trail.sql`, of the queries and
mutations issued by the `TicketDetail` page, of the `Dashboard` statistics
aggregation (`Dashboard.tsx`), and of the `useAuth` sign-out action, together
with theorems settling the specification's claims about them.

Conventions of the embedding:
* uuids are modelled as `Nat`, timestamps as `Int` (milliseconds since the
  epoch, as produced by `Date.getTime()`), JavaScript numbers as `ℚ`;
* a table is a `List` of rows; permissive RLS policies for one command are
  OR-ed, exactly as PostgreSQL combines them;
* a `SELECT` policy filters rows silently; so does the `USING` clause of an
  `UPDATE` policy (an update touching no visible row succeeds with zero rows
  and **no** error); a failing `WITH CHECK` clause of an `INSERT` policy
  raises a row-level-security violation error.
-/

/-- `user_role` enum of the schema. -/
inductive Role where
  | client
  | agent
  | manager
deriving DecidableEq

/-- `ticket_status` enum of the schema. -/
inductive TicketStatus where
  | «open»
  | pending
  | resolved
  | closed
deriving DecidableEq

/-- `ticket_priority` enum of the schema. -/
inductive TicketPriority where
  | low
  | medium
  | high
  | urgent
deriving DecidableEq

/-- A row of the `users` table (`id`, `role`, `full_name`). -/
structure UserRow where
  id : Nat
  role : Role
  full_name : String
deriving DecidableEq

/-- A row of the `tickets` table (columns used by the claims). -/
structure TicketRow where
  id : Nat
  status : TicketStatus
  priority : TicketPriority
  created_by : Nat
  assigned_to : Option Nat
  created_at : Int
  updated_at : Int
deriving DecidableEq

/-- A row of the `ticket_comments` table. -/
structure CommentRow where
  id : Nat
  ticket_id : Nat
  content : String
  internal_note : Bool
  created_by : Nat
  created_at : Int
deriving DecidableEq

/-- The database state: the three tables the claims are about. -/
structure DB where
  users : List UserRow
  tickets : List TicketRow
  ticket_comments : List CommentRow
deriving DecidableEq

/-- The error raised when an `INSERT` violates a row-level-security
`WITH CHECK` clause. -/
inductive RlsError where
  | rowLevelSecurity
deriving DecidableEq

/-- `EXISTS (SELECT 1 FROM users WHERE id = auth.uid() AND role IN roles)` —
the membership test every role-based policy of the migration performs. -/
def existsUserWithRole (db : DB) (uid : Nat) (roles : List Role) : Bool :=
  db.users.any (fun u => decide (u.id = uid) && decide (u.role ∈ roles))

/-- Role of the acting user: the `users` row keyed by `uid` (the page-level
`fetchUserProfile` query `select('role').eq('id', user.id).single()`). -/
def userRole (db : DB) (uid : Nat) : Option Role :=
  (db.users.find? (fun u => decide (u.id = uid))).map UserRow.role

/-- `SELECT` access to a ticket row: OR of the three permissive policies
"Clients can view their own tickets" (`created_by = auth.uid()`),
"Agents can view all tickets" and "Managers can view all tickets". -/
def ticketSelectAllowed (db : DB) (uid : Nat) (t : TicketRow) : Bool :=
  decide (t.created_by = uid)
    || existsUserWithRole db uid [Role.agent]
    || existsUserWithRole db uid [Role.manager]

/-- `INSERT` admission for a ticket row: OR of "Clients can create tickets"
(`WITH CHECK (auth.uid() = created_by)`) and the manager `FOR ALL` policy
(whose `WITH CHECK` defaults to its `USING`). -/
def ticketInsertAllowed (db : DB) (uid : Nat) (row : TicketRow) : Bool :=
  decide (row.created_by = uid) || existsUserWithRole db uid [Role.manager]

/-- `UPDATE` visibility for tickets: OR of the `USING` clauses of
"Agents can update tickets" and the manager `FOR ALL` policy. -/
def ticketUpdateAllowed (db : DB) (uid : Nat) : Bool :=
  existsUserWithRole db uid [Role.agent] || existsUserWithRole db uid [Role.manager]

/-- Ticket insertion as the store executes it: the row is stored when some
permissive `INSERT` policy admits it, otherwise the insert is rejected with a
row-level-security error and the database is unchanged. -/
def insertTicket (db : DB) (uid : Nat) (row : TicketRow) : Except RlsError DB :=
  if ticketInsertAllowed db uid row then
    Except.ok { db with tickets := db.tickets ++ [row] }
  else
    Except.error RlsError.rowLevelSecurity

/-- `TicketDetail.handleStatusChange`:
`supabase.from('tickets').update({status}).eq('id', ticket.id)`. Rows
matching the `eq` filter **and** visible under some `UPDATE` policy's
`USING` clause get the new status; invisible rows are silently skipped, and
the call returns no error either way (zero updated rows is not an error). -/
def updateTicketStatus (db : DB) (uid : Nat) (tid : Nat) (s : TicketStatus) :
    Option RlsError × DB :=
  (none,
    { db with
        tickets :=
          db.tickets.map (fun t =>
            if decide (t.id = tid) && ticketUpdateAllowed db uid then
              { t with status := s }
            else t) })

/-- `SELECT` access to a comment row, policy "Users can view comments on
their tickets": there is a ticket with this `ticket_id` whose creator or
assignee is the acting user, or the acting user is an agent or manager.
No clause inspects `internal_note`. -/
def commentSelectAllowed (db : DB) (uid : Nat) (c : CommentRow) : Bool :=
  db.tickets.any (fun t =>
    decide (t.id = c.ticket_id)
      && (decide (t.created_by = uid)
          || decide (t.assigned_to = some uid)
          || existsUserWithRole db uid [Role.agent, Role.manager]))

/-- `INSERT` admission for comments, policy "Agents and managers can create
comments": `WITH CHECK` that the acting user is an agent or manager; there is
no other permissive `INSERT` policy on `ticket_comments`. -/
def insertTicketComment (db : DB) (uid : Nat) (c : CommentRow) : Except RlsError DB :=
  if existsUserWithRole db uid [Role.agent, Role.manager] then
    Except.ok { db with ticket_comments := db.ticket_comments ++ [c] }
  else
    Except.error RlsError.rowLevelSecurity

/-- The comparison `order('created_at', { ascending: true })` sorts by. -/
def createdAtLe (a b : CommentRow) : Prop :=
  a.created_at ≤ b.created_at

instance : DecidableRel createdAtLe :=
  fun a b => inferInstanceAs (Decidable (a.created_at ≤ b.created_at))

instance : IsTotal CommentRow createdAtLe :=
  ⟨fun a b => Int.le_total a.created_at b.created_at⟩

instance : IsTrans CommentRow createdAtLe :=
  ⟨fun _ _ _ hab hbc => le_trans hab hbc⟩

/-- The comment query issued by `TicketDetail` both on initial load
(`fetchTicket`) and after `handleCommentSubmit`:
`from('ticket_comments').select(...).eq('ticket_id', id)
.order('created_at', { ascending: true })`, with the rows first restricted
by the `SELECT` row-level-security policy. -/
def fetchTicketComments (db : DB) (uid : Nat) (tid : Nat) : List CommentRow :=
  List.insertionSort createdAtLe
    ((db.ticket_comments.filter (commentSelectAllowed db uid)).filter
      (fun c => decide (c.ticket_id = tid)))

/-- A ticket as `Dashboard.fetchStats` selects it:
`status, priority, category:categories(name),
assigned_to:users!tickets_assigned_to_fkey(full_name), created_at,
updated_at` — the joined rows reduced to the only field read from them. -/
structure DashTicket where
  status : TicketStatus
  priority : TicketPriority
  category : Option String
  assigned_to : Option String
  created_at : Int
  updated_at : Int
deriving DecidableEq

/-- `ticketStats.filter(t => t.status === 'open').length`. -/
def openTickets (ts : List DashTicket) : Nat :=
  (ts.filter (fun t => decide (t.status = TicketStatus.«open»))).length

/-- `ticketStats.filter(t => t.status === 'resolved').length`. -/
def resolvedTickets (ts : List DashTicket) : Nat :=
  (ts.filter (fun t => decide (t.status = TicketStatus.resolved))).length

/-- `ticketStats.filter(t => t.status === 'pending').length`. -/
def pendingTickets (ts : List DashTicket) : Nat :=
  (ts.filter (fun t => decide (t.status = TicketStatus.pending))).length

/-- `ticketStats.filter(t => t.priority === 'urgent').length`. -/
def urgentTickets (ts : List DashTicket) : Nat :=
  (ts.filter (fun t => decide (t.priority = TicketPriority.urgent))).length

/-- `ticket.category?.name || 'Uncategorized'`. -/
def categoryName (t : DashTicket) : String :=
  t.category.getD "Uncategorized"

/-- One step of the `categoryCount` reduce:
`acc[category] = (acc[category] || 0) + 1`. A JavaScript object is an
insertion-ordered association list: a present key is bumped in place, an
absent key is appended with count 1. -/
def bumpCategory (acc : List (String × Nat)) (k : String) : List (String × Nat) :=
  if acc.any (fun p => decide (p.1 = k)) then
    acc.map (fun p => if p.1 = k then (p.1, p.2 + 1) else p)
  else acc ++ [(k, 1)]

/-- `Object.entries(categoryCount)` after the reduce over the ticket list:
the category-to-count mapping of the dashboard. -/
def ticketsByCategory (ts : List DashTicket) : List (String × Nat) :=
  ts.foldl (fun acc t => bumpCategory acc (categoryName t)) []

/-- `acc[category] || 0`: the count an association list holds for a key
(first entry wins, `0` when absent). -/
def categoryLookup : List (String × Nat) → String → Nat
  | [], _ => 0
  | p :: l, k => if p.1 = k then p.2 else categoryLookup l k

/-- The sum of the counts of the category mapping. -/
def sumCounts (acc : List (String × Nat)) : Nat :=
  (acc.map Prod.snd).sum

/-- One step of the `agentPerformance` reduce: a ticket with no assignee is
skipped; otherwise the assignee's entry `(name, count, resolved)` is created
at `(1, r)` or bumped to `(count+1, resolved+r)`, with `r = 1` exactly on a
resolved ticket. -/
def stepAgent (acc : List (String × Nat × Nat)) (t : DashTicket) :
    List (String × Nat × Nat) :=
  match t.assigned_to with
  | none => acc
  | some agent =>
    let r : Nat := if t.status = TicketStatus.resolved then 1 else 0
    if acc.any (fun p => decide (p.1 = agent)) then
      acc.map (fun p =>
        if p.1 = agent then (p.1, p.2.1 + 1, p.2.2 + r) else p)
    else acc ++ [(agent, 1, r)]

/-- `Object.entries(agentPerformance)` after the reduce: the dashboard's
agent-performance entries `(agent, count, resolved)`. -/
def ticketsByAgent (ts : List DashTicket) : List (String × Nat × Nat) :=
  ts.foldl stepAgent []

/-- `avgResolutionTime` of `Dashboard.fetchStats`: over the resolved
tickets, the running sum of `(updated_at − created_at) / (1000*60*60)`
(milliseconds to hours) divided by their number; `0` when there is none. -/
def avgResolutionTime (ts : List DashTicket) : ℚ :=
  let resolved := ts.filter (fun t => decide (t.status = TicketStatus.resolved))
  if resolved.length = 0 then 0
  else
    (resolved.foldl
        (fun acc t => acc + ((t.updated_at - t.created_at : Int) : ℚ) / (1000 * 60 * 60))
        0)
      / (resolved.length : ℚ)

/-- The spec's words for C5: the arithmetic mean, over tickets with
status = resolved, of `(updated_at − created_at)`, expressed in hours
(milliseconds divided by 3 600 000), and `0` with no resolved ticket. -/
def avgResolutionTimeSpec (ts : List DashTicket) : ℚ :=
  let resolved := ts.filter (fun t => decide (t.status = TicketStatus.resolved))
  if resolved.length = 0 then 0
  else
    ((resolved.map (fun t => ((t.updated_at - t.created_at : Int) : ℚ))).sum
        / (resolved.length : ℚ))
      / (1000 * 60 * 60)

/-- The resolution-rate expression rendered by the dashboard:
`stats.resolvedTickets > 0 ? resolved / (open + pending + resolved) * 100 : 0`. -/
def resolutionRate (ts : List DashTicket) : ℚ :=
  if 0 < resolvedTickets ts then
    ((resolvedTickets ts : ℚ)
        / ((openTickets ts : ℚ) + (pendingTickets ts : ℚ) + (resolvedTickets ts : ℚ)))
      * 100
  else 0

/-- The spec's words for C6: `resolved / (open + pending + resolved) × 100`
when that denominator is nonzero, and `0` when it is `0`. -/
def resolutionRateSpec (ts : List DashTicket) : ℚ :=
  if openTickets ts + pendingTickets ts + resolvedTickets ts = 0 then 0
  else
    ((resolvedTickets ts : ℚ)
        / ((openTickets ts : ℚ) + (pendingTickets ts : ℚ) + (resolvedTickets ts : ℚ)))
      * 100

/-- The `useAuth` zustand store's fields touched by `signOut`. -/
structure AuthState where
  user : Option Nat
  loading : Bool
deriving DecidableEq

/-- The result of the external `supabase.auth.signOut()` call; the hook
never reads it. -/
inductive SignOutResult where
  | success
  | failure
deriving DecidableEq

/-- `useAuth.signOut`: awaits the external call, then unconditionally
`set({ user: null, loading: false })` — the call's result is ignored. -/
def signOut (result : SignOutResult) (s : AuthState) : AuthState :=
  match result with
  | _ => { s with user := none, loading := false }

/-! ## Helper lemmas -/

/-- A `foldl` that keeps adding `f t` computes the initial value plus the
sum of the mapped list. -/
lemma foldl_add_map {α : Type} (f : α → ℚ) :
    ∀ (l : List α) (x : ℚ), l.foldl (fun acc t => acc + f t) x = x + (l.map f).sum := by
  intro l
  induction l with
  | nil => intro x; simp
  | cons a l ih =>
    intro x
    simp only [List.foldl_cons, List.map_cons, List.sum_cons]
    rw [ih]
    ring

/-- Dividing each summand by a constant divides the sum. -/
lemma sum_map_div {α : Type} (f : α → ℚ) (c : ℚ) :
    ∀ l : List α, (l.map (fun t => f t / c)).sum = (l.map f).sum / c := by
  intro l
  induction l with
  | nil => simp
  | cons a l ih =>
    simp only [List.map_cons, List.sum_cons, ih]
    rw [add_div]

/-! ## Dashboard claims -/

/-- C5: `avgResolutionTime` equals the arithmetic mean, over tickets with
status = resolved, of `(updated_at − created_at)` expressed in hours, and
equals `0` when the window has no resolved ticket; on the singleton window
`[{status: resolved, created_at: 0, updated_at: 0 + 3 600 000 ms}]` it
equals `1.0` hour. -/
theorem claim_C5_avgResolutionTime :
    (∀ ts : List DashTicket, avgResolutionTime ts = avgResolutionTimeSpec ts) ∧
    avgResolutionTime
      [{ status := TicketStatus.resolved, priority := TicketPriority.medium,
         category := none, assigned_to := none,
         created_at := 0, updated_at := 3600000 }] = 1 := by
  constructor
  · intro ts
    unfold avgResolutionTime avgResolutionTimeSpec
    set resolved := ts.filter (fun t => decide (t.status = TicketStatus.resolved)) with hres
    by_cases h : resolved.length = 0
    · simp [h]
    · rw [if_neg h, if_neg h]
      rw [foldl_add_map (fun t => ((t.updated_at - t.created_at : Int) : ℚ)
            / (1000 * 60 * 60)) resolved 0]
      rw [zero_add]
      rw [sum_map_div (fun t => ((t.updated_at - t.created_at : Int) : ℚ))
            (1000 * 60 * 60) resolved]
      rw [div_right_comm]
  · unfold avgResolutionTime
    norm_num [List.filter]

/-- C6: the dashboard's resolution rate, guarded by `resolvedTickets > 0` in
the code, equals the spec's `resolved / (open + pending + resolved) × 100`
guarded by the denominator being nonzero; in particular no division by zero
occurs and both guards agree. -/
theorem claim_C6_resolutionRate :
    ∀ ts : List DashTicket, resolutionRate ts = resolutionRateSpec ts := by
  intro ts
  unfold resolutionRate resolutionRateSpec
  by_cases h : 0 < resolvedTickets ts
  · rw [if_pos h, if_neg (by omega)]
  · have hz : resolvedTickets ts = 0 := by omega
    rw [if_neg h]
    by_cases hd : openTickets ts + pendingTickets ts + resolvedTickets ts = 0
    · rw [if_pos hd]
    · rw [if_neg hd, hz]
      norm_num

/-! ## Comment ordering (C9) -/

/-- C9: the comment list produced by the `TicketDetail` comment query (the
same query runs on initial load and after adding a comment) is sorted in
non-decreasing `created_at` order. -/
theorem claim_C9_comments_sorted (db : DB) (uid tid : Nat) :
    List.Sorted createdAtLe (fetchTicketComments db uid tid) :=
  List.sorted_insertionSort createdAtLe _

/-! ## Sign-out (C10) -/

/-- C10: after `signOut` completes the auth state has `user = null` and
`loading = false`, whatever the external sign-out call returned. -/
theorem claim_C10_signOut (r : SignOutResult) (s : AuthState) :
    (signOut r s).user = none ∧ (signOut r s).loading = false :=
  ⟨rfl, rfl⟩

/-! ## Role lemmas (primary key `users.id`) -/

/-- With unique user ids, every `users` row carrying the acting user's id
has the role `userRole` reports. -/
lemma userRole_unique {db : DB} {uid : Nat} {r : Role}
    (hpk : (db.users.map UserRow.id).Nodup)
    (h : userRole db uid = some r) :
    ∀ u ∈ db.users, u.id = uid → u.role = r := by
  unfold userRole at h
  cases hf : db.users.find? (fun u => decide (u.id = uid)) with
  | none => rw [hf] at h; simp at h
  | some u0 =>
    rw [hf] at h
    simp only [Option.map_some', Option.some.injEq] at h
    have hmem : u0 ∈ db.users := List.mem_of_find?_eq_some hf
    have hid : u0.id = uid := by
      have := List.find?_some hf
      simpa using this
    intro u hu hid'
    have : u = u0 :=
      List.inj_on_of_nodup_map hpk hu hmem (by rw [hid', hid])
    rw [this, h]

/-- With unique user ids, the `EXISTS` role test of the policies evaluates
to membership of the acting user's role in the tested set. -/
lemma existsUserWithRole_eq {db : DB} {uid : Nat} {r : Role}
    (hpk : (db.users.map UserRow.id).Nodup)
    (h : userRole db uid = some r) (roles : List Role) :
    existsUserWithRole db uid roles = decide (r ∈ roles) := by
  unfold existsUserWithRole
  by_cases hmem : r ∈ roles
  · simp only [hmem, decide_True]
    rw [List.any_eq_true]
    unfold userRole at h
    cases hf : db.users.find? (fun u => decide (u.id = uid)) with
    | none => rw [hf] at h; simp at h
    | some u0 =>
      rw [hf] at h
      simp only [Option.map_some', Option.some.injEq] at h
      refine ⟨u0, List.mem_of_find?_eq_some hf, ?_⟩
      have hid : u0.id = uid := by
        have := List.find?_some hf
        simpa using this
      simp [hid, h, hmem]
  · simp only [hmem, decide_False]
    rw [List.any_eq_false]
    intro u hu
    by_cases hid : u.id = uid
    · have := userRole_unique hpk h u hu hid
      simp [this, hmem]
    · simp [hid]

/-- When no `users` row carries the acting user's id, every role-based
`EXISTS` test of the policies is false. -/
lemma existsUserWithRole_of_none {db : DB} {uid : Nat}
    (h : userRole db uid = none) (roles : List Role) :
    existsUserWithRole db uid roles = false := by
  unfold userRole at h
  cases hf : db.users.find? (fun u => decide (u.id = uid)) with
  | some u0 => rw [hf] at h; simp at h
  | none =>
    unfold existsUserWithRole
    rw [List.any_eq_false]
    intro u hu
    have := List.find?_eq_none.mp hf u hu
    simp at this
    simp [this]

/-! ## Ticket creation (C2) -/

/-- C2: a ticket insert acted by a user whose role is `client` can only
store rows whose `created_by` is the acting user's id — whatever
`created_by` value the request supplied. -/
theorem claim_C2_client_insert_created_by (db : DB) (uid : Nat) (row : TicketRow)
    (db' : DB)
    (hpk : (db.users.map UserRow.id).Nodup)
    (hrole : userRole db uid = some Role.client)
    (hok : insertTicket db uid row = Except.ok db') :
    ∀ t ∈ db'.tickets, t ∉ db.tickets → t.created_by = uid := by
  unfold insertTicket at hok
  by_cases hall : ticketInsertAllowed db uid row
  · rw [if_pos hall] at hok
    have hdb : { db with tickets := db.tickets ++ [row] } = db' := by
      injection hok
    subst hdb
    have hcb : row.created_by = uid := by
      unfold ticketInsertAllowed at hall
      rw [existsUserWithRole_eq hpk hrole] at hall
      simpa using hall
    intro t ht hnt
    simp only [List.mem_append, List.mem_singleton] at ht
    rcases ht with h1 | h2
    · exact absurd h1 hnt
    · rw [h2]; exact hcb
  · rw [if_neg hall] at hok
    exact absurd hok (by simp)

/-- Witness for C2: in a database holding only client `1`, the insert of a
ticket with `created_by = 1` succeeds and the stored row's `created_by`
is the acting user's id. -/
theorem claim_C2_witness :
    ({ id := 10, status := TicketStatus.«open», priority := TicketPriority.medium,
       created_by := 1, assigned_to := none, created_at := 0, updated_at := 0 }
        : TicketRow).created_by = 1 :=
  claim_C2_client_insert_created_by
    ⟨[⟨1, Role.client, "Client A"⟩], [], []⟩ 1
    ⟨10, TicketStatus.«open», TicketPriority.medium, 1, none, 0, 0⟩
    ⟨[⟨1, Role.client, "Client A"⟩],
      [⟨10, TicketStatus.«open», TicketPriority.medium, 1, none, 0, 0⟩], []⟩
    (by decide) (by decide) rfl
    ⟨10, TicketStatus.«open», TicketPriority.medium, 1, none, 0, 0⟩
    (by decide) (by decide)

/-! ## Ticket status updates (C3) -/

/-- C3 counterexample: client `1` owns ticket `10` and issues a status
update; the call completes with **no** error (`USING` clauses filter rows
silently, and zero updated rows is not an error) while the stored status is
unchanged — so the update is not "rejected with an authorization error"
as the claim states. -/
theorem claim_C3_counterexample :
    (updateTicketStatus
        ⟨[⟨1, Role.client, "Client A"⟩],
          [⟨10, TicketStatus.«open», TicketPriority.medium, 1, none, 0, 0⟩], []⟩
        1 10 TicketStatus.pending).1 = none ∧
    (updateTicketStatus
        ⟨[⟨1, Role.client, "Client A"⟩],
          [⟨10, TicketStatus.«open», TicketPriority.medium, 1, none, 0, 0⟩], []⟩
        1 10 TicketStatus.pending).2
      = ⟨[⟨1, Role.client, "Client A"⟩],
          [⟨10, TicketStatus.«open», TicketPriority.medium, 1, none, 0, 0⟩], []⟩ := by
  constructor
  · rfl
  · decide

/-- C3 amended: a status update issued by a client leaves the database
unchanged and surfaces no error (a silent no-op rather than an
authorization error); issued by an agent or manager it surfaces no error
and every ticket carrying the targeted id ends with the new status. -/
theorem claim_C3_amended (db : DB) (uid tid : Nat) (s : TicketStatus)
    (hpk : (db.users.map UserRow.id).Nodup) :
    (userRole db uid = some Role.client →
      updateTicketStatus db uid tid s = (none, db)) ∧
    ((userRole db uid = some Role.agent ∨ userRole db uid = some Role.manager) →
      (updateTicketStatus db uid tid s).1 = none ∧
      ∀ t ∈ (updateTicketStatus db uid tid s).2.tickets, t.id = tid → t.status = s) := by
  constructor
  · intro hrole
    have hupd : ticketUpdateAllowed db uid = false := by
      unfold ticketUpdateAllowed
      rw [existsUserWithRole_eq hpk hrole, existsUserWithRole_eq hpk hrole]
      decide
    unfold updateTicketStatus
    simp [hupd]
  · intro hrole
    have hupd : ticketUpdateAllowed db uid = true := by
      unfold ticketUpdateAllowed
      rcases hrole with h | h <;>
        rw [existsUserWithRole_eq hpk h, existsUserWithRole_eq hpk h] <;> decide
    refine ⟨rfl, ?_⟩
    intro t ht htid
    unfold updateTicketStatus at ht
    simp only [hupd, Bool.and_true, List.mem_map] at ht
    rcases ht with ⟨t0, _, heq⟩
    by_cases h0 : t0.id = tid
    · rw [← heq]
      simp [h0]
    · rw [← heq] at htid
      simp [h0] at htid

/-- Witness for C3: an agent's status update on ticket `10` surfaces no
error and the stored row ends with the requested status. -/
theorem claim_C3_witness :
    updateTicketStatus
        ⟨[⟨1, Role.client, "Client A"⟩],
          [⟨10, TicketStatus.«open», TicketPriority.medium, 1, none, 0, 0⟩], []⟩
        1 10 TicketStatus.pending = (none,
      ⟨[⟨1, Role.client, "Client A"⟩],
        [⟨10, TicketStatus.«open», TicketPriority.medium, 1, none, 0, 0⟩], []⟩) :=
  (claim_C3_amended
      ⟨[⟨1, Role.client, "Client A"⟩],
        [⟨10, TicketStatus.«open», TicketPriority.medium, 1, none, 0, 0⟩], []⟩
      1 10 TicketStatus.pending (by decide)).1 (by decide)

/-! ## Comment creation (C4) -/

/-- C4: a comment insert succeeds exactly when the acting user's role is
agent or manager; acted by a client — even the creator of the commented
ticket — it is rejected at the authorization boundary with a
row-level-security error. -/
theorem claim_C4_comment_insert (db : DB) (uid : Nat) (c : CommentRow)
    (hpk : (db.users.map UserRow.id).Nodup) :
    ((∃ db', insertTicketComment db uid c = Except.ok db') ↔
      (userRole db uid = some Role.agent ∨ userRole db uid = some Role.manager)) ∧
    (userRole db uid = some Role.client →
      insertTicketComment db uid c = Except.error RlsError.rowLevelSecurity) := by
  cases hr : userRole db uid with
  | none =>
    have hfalse := existsUserWithRole_of_none hr [Role.agent, Role.manager]
    unfold insertTicketComment
    simp [hfalse]
  | some r =>
    have he := existsUserWithRole_eq hpk hr [Role.agent, Role.manager]
    cases r with
    | client =>
      have he' : existsUserWithRole db uid [Role.agent, Role.manager] = false := by
        rw [he]; decide
      unfold insertTicketComment
      simp [he', hr]
    | agent =>
      have he' : existsUserWithRole db uid [Role.agent, Role.manager] = true := by
        rw [he]; decide
      unfold insertTicketComment
      simp [he', hr]
    | manager =>
      have he' : existsUserWithRole db uid [Role.agent, Role.manager] = true := by
        rw [he]; decide
      unfold insertTicketComment
      simp [he', hr]

/-- Witness for C4: client `1`, creator of ticket `10`, has their comment
insert rejected with a row-level-security error. -/
theorem claim_C4_witness :
    insertTicketComment
        ⟨[⟨1, Role.client, "Client A"⟩],
          [⟨10, TicketStatus.«open», TicketPriority.medium, 1, none, 0, 0⟩], []⟩
        1 ⟨100, 10, "hello", false, 1, 0⟩
      = Except.error RlsError.rowLevelSecurity :=
  (claim_C4_comment_insert
      ⟨[⟨1, Role.client, "Client A"⟩],
        [⟨10, TicketStatus.«open», TicketPriority.medium, 1, none, 0, 0⟩], []⟩
      1 ⟨100, 10, "hello", false, 1, 0⟩ (by decide)).2 (by decide)

/-! ## Category mapping (C7) -/

/-- Bumping a key not present in the association list changes nothing
entrywise. -/
lemma bumpCategory_map_self {l : List (String × Nat)} {k : String}
    (h : l.any (fun p => decide (p.1 = k)) = false) :
    l.map (fun p => if p.1 = k then (p.1, p.2 + 1) else p) = l := by
  induction l with
  | nil => rfl
  | cons p l ih =>
    simp only [List.any_cons, Bool.or_eq_false_iff] at h
    have hp : ¬ p.1 = k := of_decide_eq_false h.1
    simp only [List.map_cons, if_neg hp, ih h.2]

/-- A key absent from the association list reads back `0`. -/
lemma categoryLookup_eq_zero {l : List (String × Nat)} {k : String}
    (h : l.any (fun p => decide (p.1 = k)) = false) :
    categoryLookup l k = 0 := by
  induction l with
  | nil => rfl
  | cons p l ih =>
    simp only [List.any_cons, Bool.or_eq_false_iff] at h
    have hp : ¬ p.1 = k := of_decide_eq_false h.1
    simp only [categoryLookup, if_neg hp]
    exact ih h.2

/-- Appending a fresh key reads back `1` at that key when it was absent. -/
lemma categoryLookup_append_one_self {l : List (String × Nat)} {k : String}
    (h : l.any (fun p => decide (p.1 = k)) = false) :
    categoryLookup (l ++ [(k, 1)]) k = 1 := by
  induction l with
  | nil => simp [categoryLookup]
  | cons p l ih =>
    simp only [List.any_cons, Bool.or_eq_false_iff] at h
    have hp : ¬ p.1 = k := of_decide_eq_false h.1
    simp only [List.cons_append, categoryLookup, if_neg hp]
    exact ih h.2

/-- Appending an entry for `k` leaves the value at any other key alone. -/
lemma categoryLookup_append_one_other {l : List (String × Nat)} {k k' : String}
    (h : k' ≠ k) :
    categoryLookup (l ++ [(k, 1)]) k' = categoryLookup l k' := by
  induction l with
  | nil => simp [categoryLookup, Ne.symm h]
  | cons p l ih =>
    by_cases hp : p.1 = k'
    · simp [categoryLookup, hp]
    · simp [categoryLookup, hp, ih]

/-- Bumping a present key adds `1` to the value read back at that key. -/
lemma categoryLookup_map_bump_self {l : List (String × Nat)} {k : String}
    (hany : l.any (fun p => decide (p.1 = k)) = true) :
    categoryLookup (l.map (fun p => if p.1 = k then (p.1, p.2 + 1) else p)) k
      = categoryLookup l k + 1 := by
  induction l with
  | nil => simp at hany
  | cons p l ih =>
    by_cases hp : p.1 = k
    · simp [categoryLookup, hp]
    · simp only [List.any_cons, Bool.or_eq_true] at hany
      rcases hany with h1 | h2
      · exact absurd (of_decide_eq_true h1) hp
      · simp only [List.map_cons, if_neg hp, categoryLookup]
        exact ih h2

/-- Bumping key `k` leaves the value read back at any other key alone. -/
lemma categoryLookup_map_bump_other {l : List (String × Nat)} {k k' : String}
    (h : k' ≠ k) :
    categoryLookup (l.map (fun p => if p.1 = k then (p.1, p.2 + 1) else p)) k'
      = categoryLookup l k' := by
  induction l with
  | nil => rfl
  | cons p l ih =>
    by_cases hp : p.1 = k
    · have hk' : ¬ k = k' := Ne.symm h
      simp [categoryLookup, hp, hk', ih]
    · simp [categoryLookup, hp, ih]

/-- One `bumpCategory` step adds `1` at the bumped key and nothing
elsewhere. -/
lemma categoryLookup_bumpCategory (acc : List (String × Nat)) (k k' : String) :
    categoryLookup (bumpCategory acc k) k'
      = categoryLookup acc k' + (if k' = k then 1 else 0) := by
  unfold bumpCategory
  by_cases hany : acc.any (fun p => decide (p.1 = k)) = true
  · rw [if_pos hany]
    by_cases hk : k' = k
    · subst hk
      rw [categoryLookup_map_bump_self hany]
      simp
    · rw [categoryLookup_map_bump_other hk]
      simp [hk]
  · have hfalse : acc.any (fun p => decide (p.1 = k)) = false :=
      Bool.eq_false_iff.mpr hany
    rw [if_neg hany]
    by_cases hk : k' = k
    · subst hk
      rw [categoryLookup_append_one_self hfalse, categoryLookup_eq_zero hfalse]
      simp
    · rw [categoryLookup_append_one_other hk]
      simp [hk]

/-- A `bumpCategory` step keeps the keys of the association list unique. -/
lemma nodup_keys_bumpCategory {acc : List (String × Nat)} {k : String}
    (hnd : (acc.map Prod.fst).Nodup) :
    ((bumpCategory acc k).map Prod.fst).Nodup := by
  unfold bumpCategory
  by_cases hany : acc.any (fun p => decide (p.1 = k)) = true
  · rw [if_pos hany]
    have : (acc.map (fun p => if p.1 = k then (p.1, p.2 + 1) else p)).map
        Prod.fst = acc.map Prod.fst := by
      rw [List.map_map]
      apply List.map_congr_left
      intro p _
      by_cases hp : p.1 = k <;> simp [hp]
    rw [this]
    exact hnd
  · have hfalse : acc.any (fun p => decide (p.1 = k)) = false :=
      Bool.eq_false_iff.mpr hany
    rw [if_neg hany, List.map_append]
    simp only [List.map_cons, List.map_nil]
    rw [List.nodup_append]
    refine ⟨hnd, List.nodup_singleton k, ?_⟩
    intro x hx hx'
    simp only [List.mem_singleton] at hx'
    subst hx'
    rcases List.mem_map.1 hx with ⟨p, hp, hpk⟩
    have h2 := (List.any_eq_false.mp hfalse) p hp
    exact h2 (decide_eq_true hpk)

/-- Bumping a present key adds exactly `1` to the total of the counts when
keys are unique (uniqueness keeps the in-place bump from touching two
entries). -/
lemma sumCounts_map_bump {l : List (String × Nat)} {k : String}
    (hnd : (l.map Prod.fst).Nodup)
    (hany : l.any (fun p => decide (p.1 = k)) = true) :
    sumCounts (l.map (fun p => if p.1 = k then (p.1, p.2 + 1) else p))
      = sumCounts l + 1 := by
  induction l with
  | nil => simp at hany
  | cons p l ih =>
    simp only [List.map_cons, List.nodup_cons] at hnd
    by_cases hp : p.1 = k
    · have hk : l.any (fun q => decide (q.1 = k)) = false := by
        rw [List.any_eq_false]
        intro q hq h
        exact hnd.1 (by rw [hp, ← of_decide_eq_true h]
                        exact List.mem_map_of_mem Prod.fst hq)
      simp only [List.map_cons, if_pos hp, bumpCategory_map_self hk]
      simp only [sumCounts, List.map_cons, List.sum_cons]
      omega
    · simp only [List.any_cons, Bool.or_eq_true] at hany
      rcases hany with h1 | h2
      · exact absurd (of_decide_eq_true h1) hp
      · simp only [List.map_cons, if_neg hp]
        simp only [sumCounts, List.map_cons, List.sum_cons] at ih ⊢
        rw [ih hnd.2 h2]
        omega

/-- One `bumpCategory` step adds exactly `1` to the total of the counts,
provided keys are unique. -/
lemma sumCounts_bumpCategory {acc : List (String × Nat)} {k : String}
    (hnd : (acc.map Prod.fst).Nodup) :
    sumCounts (bumpCategory acc k) = sumCounts acc + 1 := by
  unfold bumpCategory
  by_cases hany : acc.any (fun p => decide (p.1 = k)) = true
  · rw [if_pos hany]
    exact sumCounts_map_bump hnd hany
  · rw [if_neg hany]
    simp [sumCounts]

/-- Invariant of the category reduce: starting from an accumulator with
unique keys, folding a ticket list keeps keys unique, adds each ticket to
the count of its (defaulted) category name, and adds the ticket count to
the total. -/
lemma foldl_bumpCategory_inv (ts : List DashTicket) :
    ∀ acc : List (String × Nat), (acc.map Prod.fst).Nodup →
      (((ts.foldl (fun a t => bumpCategory a (categoryName t)) acc).map
          Prod.fst).Nodup
      ∧ (∀ k, categoryLookup (ts.foldl (fun a t => bumpCategory a (categoryName t)) acc) k
          = categoryLookup acc k
            + (ts.filter (fun t => decide (categoryName t = k))).length)
      ∧ sumCounts (ts.foldl (fun a t => bumpCategory a (categoryName t)) acc)
          = sumCounts acc + ts.length) := by
  induction ts with
  | nil =>
    intro acc hnd
    exact ⟨hnd, fun k => by simp, by simp⟩
  | cons t l ih =>
    intro acc hnd
    have hnd' := nodup_keys_bumpCategory (k := categoryName t) hnd
    obtain ⟨h1, h2, h3⟩ := ih (bumpCategory acc (categoryName t)) hnd'
    refine ⟨h1, ?_, ?_⟩
    · intro k
      rw [List.foldl_cons] at *
      rw [h2 k, categoryLookup_bumpCategory]
      by_cases hk : categoryName t = k
      · simp [List.filter_cons, hk]
        omega
      · have hk' : ¬ k = categoryName t := fun he => hk he.symm
        simp [List.filter_cons, hk, hk']
    · rw [List.foldl_cons, h3, sumCounts_bumpCategory hnd]
      simp [Nat.add_assoc, Nat.add_comm 1 l.length]

/-- C7: `ticketsByCategory` maps each category name (with "Uncategorized"
substituted for a missing category) to the number of window tickets bearing
it, and the counts sum to the total number of tickets in the window. -/
theorem claim_C7_ticketsByCategory (ts : List DashTicket) :
    (∀ k, categoryLookup (ticketsByCategory ts) k
        = (ts.filter (fun t => decide (categoryName t = k))).length)
    ∧ sumCounts (ticketsByCategory ts) = ts.length := by
  obtain ⟨-, h2, h3⟩ := foldl_bumpCategory_inv ts [] (by simp)
  exact ⟨fun k => by simpa [categoryLookup] using h2 k,
    by simpa [sumCounts] using h3⟩

/-! ## Agent performance (C8) -/

/-- One `stepAgent` step preserves "resolved ≤ assigned" for every entry. -/
lemma stepAgent_le {acc : List (String × Nat × Nat)} {t : DashTicket}
    (h : ∀ e ∈ acc, e.2.2 ≤ e.2.1) :
    ∀ e ∈ stepAgent acc t, e.2.2 ≤ e.2.1 := by
  cases ha : t.assigned_to with
  | none =>
    have hs : stepAgent acc t = acc := by
      unfold stepAgent; rw [ha]
    rw [hs]; exact h
  | some agent =>
    have hs : stepAgent acc t =
        (if acc.any (fun p => decide (p.1 = agent)) then
          acc.map (fun p => if p.1 = agent then
            (p.1, p.2.1 + 1,
              p.2.2 + (if t.status = TicketStatus.resolved then 1 else 0)) else p)
        else acc ++ [(agent, 1,
          (if t.status = TicketStatus.resolved then 1 else 0))]) := by
      unfold stepAgent; rw [ha]
    rw [hs]
    by_cases hany : acc.any (fun p => decide (p.1 = agent)) = true
    · rw [if_pos hany]
      intro e he
      rcases List.mem_map.1 he with ⟨p, hp, heq⟩
      by_cases hpk : p.1 = agent
      · rw [← heq, if_pos hpk]
        have := h p hp
        by_cases hr : t.status = TicketStatus.resolved <;> simp [hr] <;> omega
      · rw [← heq, if_neg hpk]
        exact h p hp
    · rw [if_neg hany]
      intro e he
      rcases List.mem_append.1 he with h1 | h1
      · exact h e h1
      · simp only [List.mem_singleton] at h1
        subst h1
        by_cases hr : t.status = TicketStatus.resolved <;> simp [hr]

/-- `stepAgent` skips tickets without an assignee, so the reduce only sees
tickets whose assignee is present. -/
lemma foldl_stepAgent_filter (ts : List DashTicket) :
    ∀ acc, ts.foldl stepAgent acc
      = (ts.filter (fun t => t.assigned_to.isSome)).foldl stepAgent acc := by
  induction ts with
  | nil => intro acc; rfl
  | cons t l ih =>
    intro acc
    cases ha : t.assigned_to with
    | none =>
      have hstep : stepAgent acc t = acc := by unfold stepAgent; rw [ha]
      simp [List.filter_cons, ha, hstep, ih]
    | some agent =>
      simp [List.filter_cons, ha, ih]

/-- C8: every entry of the dashboard's agent-performance mapping has
`resolved ≤ assigned`, and only tickets with a present assignee contribute
(the reduce is unchanged by dropping assignee-less tickets). -/
theorem claim_C8_ticketsByAgent (ts : List DashTicket) :
    (∀ e ∈ ticketsByAgent ts, e.2.2 ≤ e.2.1)
    ∧ ticketsByAgent ts
        = ticketsByAgent (ts.filter (fun t => t.assigned_to.isSome)) := by
  constructor
  · have main : ∀ (l : List DashTicket) (acc : List (String × Nat × Nat)),
        (∀ e ∈ acc, e.2.2 ≤ e.2.1) → ∀ e ∈ l.foldl stepAgent acc, e.2.2 ≤ e.2.1 := by
      intro l
      induction l with
      | nil => intro acc h; simpa using h
      | cons t l ih =>
        intro acc h
        rw [List.foldl_cons]
        exact ih (stepAgent acc t) (stepAgent_le h)
    exact main ts [] (by simp)
  · exact foldl_stepAgent_filter ts []

/-! ## Internal notes and client visibility (C1) -/

/-- Client `1`, who created ticket `10`. -/
def clientA : UserRow := ⟨1, Role.client, "Client A"⟩

/-- Agent `2`, who writes the internal note. -/
def agentB : UserRow := ⟨2, Role.agent, "Agent B"⟩

/-- Ticket `10`, created by client `1`. -/
def ticketT1 : TicketRow :=
  ⟨10, TicketStatus.«open», TicketPriority.medium, 1, none, 0, 0⟩

/-- The internal note the agent adds on ticket `10`. -/
def noteC1 : CommentRow := ⟨100, 10, "internal note", true, 2, 5⟩

/-- The database before the agent comments. -/
def dbBefore : DB := ⟨[clientA, agentB], [ticketT1], []⟩

/-- The database after the agent's internal note is stored. -/
def dbAfter : DB := ⟨[clientA, agentB], [ticketT1], [noteC1]⟩

/-- C1: the spec's own scenario evaluated on the embedded code. Client `1`
created ticket `10` and can read it; agent `2` adds internal note `C1` on
it; the client's comment fetch on ticket `10` **returns** the internal
note — neither the `SELECT` policy nor the page filters `internal_note`,
so the claimed exclusion fails on the code. -/
theorem claim_C1_internal_note_returned_to_client :
    userRole dbAfter 1 = some Role.client
    ∧ ticketSelectAllowed dbAfter 1 ticketT1 = true
    ∧ insertTicketComment dbBefore 2 noteC1 = Except.ok dbAfter
    ∧ noteC1.internal_note = true
    ∧ noteC1 ∈ fetchTicketComments dbAfter 1 10 := by
  refine ⟨rfl, by decide, rfl, rfl, ?_⟩
  decide
